import Mathlib

/-!
Shallow embedding of `src/rand_example.py`: a minimal mesa-style agent-based
simulation.  A `ProductionAgent` accumulates work each timestep, optionally
scaled by a caller-supplied zero-argument randomizer; `MyModel` owns the
agents, steps them once per model step via the scheduler, and reports the sum
of their cumulative work.

Modelling choices:
* Python numerics are embedded as `Int`.
* A randomizer is a zero-argument callable that may be stateful (e.g. an RNG
  with internal state).  It is embedded as a draw stream `Nat → Int` together
  with a global call counter `rngCalls` threaded through every invocation:
  the n-th call (program-wide) returns `f n`.  A deterministic randomizer
  always returning `v` is `fun _ => v`.
* The scheduler (`mesa.time.RandomActivation`) is an external collaborator,
  not code of this repository; it is modelled from its contract: one
  activation pass invokes each registered agent's `step` exactly once, in the
  registration (insertion) order.  Activation order is unspecified by the
  source; the properties verified here do not depend on it.
* `print` diagnostics are side channels and are not modelled.
-/

/-- The randomizer: a zero-argument callable returning a numeric value,
embedded as a stream of draws indexed by the global call counter. -/
def Randomizer : Type := Nat → Int

/-- Embeds `ProductionAgent`: identity, optional randomizer reference,
production rate, and cumulative work. -/
structure ProductionAgent where
  unique_id : Nat
  randfunc : Option Randomizer
  production : Int
  work_to_date : Int

/-- Embeds `ProductionAgent.__init__`: stores the randomizer and production
rate and sets `work_to_date = 0` (lines 11-17). -/
def ProductionAgent.init (unique_id : Nat) (production : Int)
    (random_function : Option Randomizer) : ProductionAgent :=
  { unique_id := unique_id
    randfunc := random_function
    production := production
    work_to_date := 0 }

/-- Embeds `ProductionAgent.step` (lines 19-26): if no randomizer was
supplied, add `production` to `work_to_date`; otherwise call the randomizer
once and add `production * randfunc()`.  The global randomizer call counter
is taken and returned, advancing by one exactly when the randomizer is
invoked. -/
def ProductionAgent.step (a : ProductionAgent) (rngCalls : Nat) :
    ProductionAgent × Nat :=
  match a.randfunc with
  | none => ({ a with work_to_date := a.work_to_date + a.production }, rngCalls)
  | some f =>
      ({ a with work_to_date := a.work_to_date + a.production * f rngCalls },
       rngCalls + 1)

/-- Iterates `ProductionAgent.step` k times on a single agent, threading the
randomizer call counter. -/
def ProductionAgent.runN : ProductionAgent → Nat → Nat → ProductionAgent × Nat
  | a, r, 0 => (a, r)
  | a, r, k + 1 =>
      let s := a.step r
      ProductionAgent.runN s.1 s.2 k

/-- Embeds `MyModel`: agent count, step counter, the scheduler's agent
collection (in insertion order), and the global randomizer call counter. -/
structure MyModel where
  num_agents : Nat
  num_steps : Nat
  agents : List ProductionAgent
  rngCalls : Nat

/-- Embeds `MyModel.__init__` (lines 32-46): sets `num_steps = 0` and creates
`num_agents` agents with identities `0, 1, ...`, all sharing the default
production rate and the same randomizer reference, registered with the
scheduler in creation order. -/
def MyModel.init (num_agents : Nat) (default_production : Int)
    (production_randomizer : Option Randomizer) : MyModel :=
  { num_agents := num_agents
    num_steps := 0
    agents := (List.range num_agents).map
      (fun i => ProductionAgent.init i default_production production_randomizer)
    rngCalls := 0 }

/-- One activation pass of the scheduler: invokes each agent's `step` exactly
once, threading the global randomizer call counter.  Modelled from the
contract of the external `mesa.time.RandomActivation` collaborator
(`schedule.step()`, line 51). -/
def scheduleStep : List ProductionAgent → Nat → List ProductionAgent × Nat
  | [], r => ([], r)
  | a :: rest, r =>
      let s := a.step r
      let t := scheduleStep rest s.2
      (s.1 :: t.1, t.2)

/-- Embeds `MyModel.step` (lines 48-53): increments `num_steps`, delegates one
activation pass to the scheduler, then computes the reported total production
as the sum of all agents' cumulative work.  Returns the new model state
together with the reported total. -/
def MyModel.step (m : MyModel) : MyModel × Int :=
  let stepped := scheduleStep m.agents m.rngCalls
  let m2 : MyModel :=
    { m with
        num_steps := m.num_steps + 1
        agents := stepped.1
        rngCalls := stepped.2 }
  (m2, (m2.agents.map (fun a => a.work_to_date)).sum)

/-- Runs `MyModel.step` k times, keeping the model state. -/
def MyModel.run : MyModel → Nat → MyModel
  | m, 0 => m
  | m, k + 1 => ((MyModel.run m k).step).1

/-! ## Helper lemmas -/

/-- Agent.step leaves the identity unchanged. -/
theorem ProductionAgent.step_unique_id (a : ProductionAgent) (r : Nat) :
    (a.step r).1.unique_id = a.unique_id := by
  cases h : a.randfunc <;> simp [ProductionAgent.step, h]

/-- Agent.step leaves the production rate unchanged. -/
theorem ProductionAgent.step_production (a : ProductionAgent) (r : Nat) :
    (a.step r).1.production = a.production := by
  cases h : a.randfunc <;> simp [ProductionAgent.step, h]

/-- Agent.step leaves the randomizer reference unchanged. -/
theorem ProductionAgent.step_randfunc (a : ProductionAgent) (r : Nat) :
    (a.step r).1.randfunc = a.randfunc := by
  cases h : a.randfunc <;> simp [ProductionAgent.step, h]

/-- Step of an agent with no randomizer: add the production, counter fixed. -/
theorem ProductionAgent.step_none (a : ProductionAgent) (r : Nat)
    (h : a.randfunc = none) :
    a.step r = ({ a with work_to_date := a.work_to_date + a.production }, r) := by
  simp [ProductionAgent.step, h]

/-- Step of an agent with a randomizer: add production times the draw,
counter advances by one. -/
theorem ProductionAgent.step_some (a : ProductionAgent) (f : Randomizer)
    (r : Nat) (h : a.randfunc = some f) :
    a.step r =
      ({ a with work_to_date := a.work_to_date + a.production * f r }, r + 1) := by
  simp [ProductionAgent.step, h]

/-- Step of an agent with no randomizer adds exactly the production to the
cumulative work. -/
theorem ProductionAgent.step_work_none (a : ProductionAgent) (r : Nat)
    (h : a.randfunc = none) :
    (a.step r).1.work_to_date = a.work_to_date + a.production := by
  simp [ProductionAgent.step, h]

/-- Step of an agent with a randomizer adds exactly production times the
current draw to the cumulative work. -/
theorem ProductionAgent.step_work_some (a : ProductionAgent) (f : Randomizer)
    (r : Nat) (h : a.randfunc = some f) :
    (a.step r).1.work_to_date = a.work_to_date + a.production * f r := by
  simp [ProductionAgent.step, h]

/-- Iterating step on an agent with no randomizer adds production once per
step. -/
theorem ProductionAgent.runN_none (k : Nat) (a : ProductionAgent) (r : Nat)
    (h : a.randfunc = none) :
    (a.runN r k).1.work_to_date = a.work_to_date + a.production * k := by
  induction k generalizing a r with
  | zero => simp [ProductionAgent.runN]
  | succ k ih =>
      show (((a.step r).1).runN ((a.step r).2) k).1.work_to_date = _
      rw [ih _ _ (by rw [a.step_randfunc r]; exact h),
        a.step_work_none r h, a.step_production r]
      push_cast
      ring

/-- Iterating step on an agent whose randomizer always returns `v` adds
`production * v` once per step. -/
theorem ProductionAgent.runN_const (k : Nat) (a : ProductionAgent) (v : Int)
    (r : Nat) (h : a.randfunc = some (fun _ => v)) :
    (a.runN r k).1.work_to_date = a.work_to_date + a.production * v * k := by
  induction k generalizing a r with
  | zero => simp [ProductionAgent.runN]
  | succ k ih =>
      show (((a.step r).1).runN ((a.step r).2) k).1.work_to_date = _
      rw [ih _ _ (by rw [a.step_randfunc r]; exact h),
        a.step_work_some (fun _ => v) r h, a.step_production r]
      push_cast
      ring

/-- Iterating step preserves the randomizer reference. -/
theorem ProductionAgent.runN_randfunc (k : Nat) (a : ProductionAgent)
    (r : Nat) : (a.runN r k).1.randfunc = a.randfunc := by
  induction k generalizing a r with
  | zero => rfl
  | succ k ih => rw [ProductionAgent.runN, ih]; exact a.step_randfunc r

/-- Iterating step preserves the production rate. -/
theorem ProductionAgent.runN_production (k : Nat) (a : ProductionAgent)
    (r : Nat) : (a.runN r k).1.production = a.production := by
  induction k generalizing a r with
  | zero => rfl
  | succ k ih => rw [ProductionAgent.runN, ih]; exact a.step_production r

/-- One scheduler pass keeps the number of agents. -/
theorem scheduleStep_length (l : List ProductionAgent) (r : Nat) :
    (scheduleStep l r).1.length = l.length := by
  induction l generalizing r with
  | nil => rfl
  | cons a rest ih => simp [scheduleStep, ih]

/-- In one scheduler pass, the agent at position i of the result is the agent
at position i of the input stepped exactly once (at some value of the global
call counter). -/
theorem scheduleStep_get? (l : List ProductionAgent) (r i : Nat) :
    ∃ s, (scheduleStep l r).1.get? i
      = (l.get? i).map (fun a => (a.step s).1) := by
  induction l generalizing r i with
  | nil => exact ⟨r, rfl⟩
  | cons a rest ih =>
      cases i with
      | zero => exact ⟨r, rfl⟩
      | succ i =>
          obtain ⟨s, hs⟩ := ih (a.step r).2 i
          exact ⟨s, hs⟩

/-- One scheduler pass advances the global randomizer call counter by the
number of agents that hold a randomizer. -/
theorem scheduleStep_rngCalls (l : List ProductionAgent) (r : Nat) :
    (scheduleStep l r).2 = r + l.countP (fun a => a.randfunc.isSome) := by
  induction l generalizing r with
  | nil => rfl
  | cons a rest ih =>
      cases h : a.randfunc with
      | none =>
          rw [scheduleStep, a.step_none r h, ih]
          simp [List.countP_cons, h]
      | some f =>
          rw [scheduleStep, a.step_some f r h, ih]
          simp [List.countP_cons, h]
          omega

/-- The total returned by Model.step is, definitionally, the sum of the
post-step agents' cumulative work. -/
theorem MyModel.step_snd (m : MyModel) :
    (m.step).2 = (((m.step).1.agents).map (fun a => a.work_to_date)).sum := rfl

/-- One step does not decrease cumulative work when the production and every
randomizer draw are non-negative. -/
theorem ProductionAgent.step_work_le (a : ProductionAgent) (r : Nat)
    (hp : 0 ≤ a.production)
    (hf : ∀ f, a.randfunc = some f → ∀ n, 0 ≤ f n) :
    a.work_to_date ≤ (a.step r).1.work_to_date := by
  cases h : a.randfunc with
  | none => rw [a.step_work_none r h]; linarith
  | some f =>
      rw [a.step_work_some f r h]
      have hm : 0 ≤ a.production * f r := mul_nonneg hp (hf f h r)
      linarith

/-- Iterated steps do not decrease cumulative work when the production and
every randomizer draw are non-negative. -/
theorem ProductionAgent.runN_work_le (k : Nat) (a : ProductionAgent) (r : Nat)
    (hp : 0 ≤ a.production)
    (hf : ∀ f, a.randfunc = some f → ∀ n, 0 ≤ f n) :
    a.work_to_date ≤ (a.runN r k).1.work_to_date := by
  induction k generalizing a r with
  | zero => exact le_refl _
  | succ k ih =>
      show a.work_to_date ≤ (((a.step r).1).runN ((a.step r).2) k).1.work_to_date
      refine le_trans (a.step_work_le r hp hf) (ih _ _ ?_ ?_)
      · rw [a.step_production r]; exact hp
      · intro f hf2
        exact hf f (by rw [← a.step_randfunc r]; exact hf2)

/-! ## Claim theorems -/

/-- C1: after k calls to Agent.step, cumulative work equals
production × v × k, where v is 1 when no randomizer was supplied and
otherwise the constant value v of a deterministic randomizer; and each
single step adds exactly production × variate to work_to_date. -/
theorem C1_agent_cumulative_work (i r k : Nat) (p v : Int) :
    ((ProductionAgent.init i p none).runN r k).1.work_to_date = p * 1 * k ∧
    ((ProductionAgent.init i p (some (fun _ => v))).runN r k).1.work_to_date
      = p * v * k ∧
    (∀ a : ProductionAgent, a.randfunc = none →
        (a.step r).1.work_to_date = a.work_to_date + a.production * 1) ∧
    (∀ (a : ProductionAgent) (f : Randomizer), a.randfunc = some f →
        (a.step r).1.work_to_date = a.work_to_date + a.production * f r) := by
  refine ⟨?_, ?_, ?_, ?_⟩
  · rw [ProductionAgent.runN_none k _ r rfl]
    show (0:Int) + p * (k:Int) = p * 1 * (k:Int)
    ring
  · rw [ProductionAgent.runN_const k _ v r rfl]
    show (0:Int) + p * v * (k:Int) = p * v * (k:Int)
    ring
  · intro a h
    rw [a.step_work_none r h, mul_one]
  · intro a f h
    exact a.step_work_some f r h

/-- C2: the total production reported by Model.step after the (k+1)-th step
equals the sum over all of the model's agents of that agent's cumulative
work. -/
theorem C2_total_production_is_sum (m : MyModel) (k : Nat) :
    ((m.run k).step).2
      = (((m.run (k + 1)).agents).map (fun a => a.work_to_date)).sum := by
  rw [MyModel.step_snd]
  rfl

/-- C3: num_steps starts at zero at construction, is incremented by exactly
one on every call to Model.step, and never decreases across a step; the
scheduler pass acts only on the agent list and the call counter, so no other
operation of the embedding changes num_steps. -/
theorem C3_num_steps_counter (n : Nat) (p : Int) (rz : Option Randomizer)
    (m : MyModel) :
    (MyModel.init n p rz).num_steps = 0 ∧
    ((m.step).1.num_steps = m.num_steps + 1) ∧
    m.num_steps ≤ ((m.step).1).num_steps :=
  ⟨rfl, rfl, Nat.le_succ _⟩

/-- C4 as stated is false: for an agent whose randomizer always returns -1
(a zero-argument callable returning a numeric value), one call to Agent.step
strictly decreases the cumulative work. -/
theorem C4_counterexample_negative_randomizer :
    ((ProductionAgent.init 0 10 (some (fun _ => -1))).step 0).1.work_to_date
      < (ProductionAgent.init 0 10 (some (fun _ => -1))).work_to_date := by
  decide

/-- C4 amended: the agent's cumulative work is non-decreasing across calls to
Agent.step provided the agent's production is non-negative and every value
its randomizer returns is non-negative (the code places no sign restriction,
so a negative draw decreases work); and in a scheduler pass the agent at each
position of the result is obtained from the agent at the same position of the
input by that agent's own step alone. -/
theorem C4_work_nondecreasing (a : ProductionAgent) (r k s i : Nat)
    (l : List ProductionAgent)
    (hp : 0 ≤ a.production)
    (hf : ∀ f, a.randfunc = some f → ∀ n, 0 ≤ f n) :
    a.work_to_date ≤ (a.step r).1.work_to_date ∧
    a.work_to_date ≤ (a.runN r k).1.work_to_date ∧
    (∃ t, (scheduleStep l s).1.get? i
        = (l.get? i).map (fun b => (b.step t).1)) :=
  ⟨a.step_work_le r hp hf, ProductionAgent.runN_work_le k a r hp hf,
    scheduleStep_get? l s i⟩

/-- Witness for C4_work_nondecreasing at a concrete input: an agent with
production 10 and a randomizer always returning 2. -/
theorem C4_work_nondecreasing_witness :
    ((0:Int) ≤ (ProductionAgent.init 0 10 (some (fun _ => 2))).production) ∧
    ((ProductionAgent.init 0 10 (some (fun _ => 2))).work_to_date
        ≤ ((ProductionAgent.init 0 10 (some (fun _ => 2))).step 0).1.work_to_date ∧
      (ProductionAgent.init 0 10 (some (fun _ => 2))).work_to_date
        ≤ ((ProductionAgent.init 0 10 (some (fun _ => 2))).runN 0 2).1.work_to_date ∧
      (∃ t, (scheduleStep [ProductionAgent.init 1 5 none] 0).1.get? 0
          = ([ProductionAgent.init 1 5 none].get? 0).map (fun b => (b.step t).1))) :=
  ⟨by decide,
    C4_work_nondecreasing (ProductionAgent.init 0 10 (some (fun _ => 2)))
      0 2 0 0 [ProductionAgent.init 1 5 none] (by decide)
      (fun f hq n => (Option.some.inj hq) ▸ (by decide : (0:Int) ≤ 2))⟩

/-- C5: on every call to Model.step, the agent collection keeps its length,
the agent at each position of the result is the agent at the same position of
the input stepped exactly once, and the global randomizer call counter grows
by exactly the number of agents holding a randomizer: each present randomizer
is called exactly once per agent per model step. -/
theorem C5_each_agent_stepped_once (m : MyModel) :
    ((m.step).1.agents.length = m.agents.length) ∧
    (∀ i, ∃ s, ((m.step).1.agents.get? i)
        = (m.agents.get? i).map (fun a => (a.step s).1)) ∧
    ((m.step).1.rngCalls
        = m.rngCalls + m.agents.countP (fun a => a.randfunc.isSome)) :=
  ⟨scheduleStep_length m.agents m.rngCalls,
    fun i => scheduleStep_get? m.agents m.rngCalls i,
    scheduleStep_rngCalls m.agents m.rngCalls⟩

/-- C6: Agent.step mutates only the cumulative work: identity, production
rate and randomizer reference are unchanged by every call; and in a scheduler
pass each position of the result depends only on the agent at that same
position of the input, so no other agent's state is modified. -/
theorem C6_step_frame (a : ProductionAgent) (r : Nat) :
    ((a.step r).1.unique_id = a.unique_id) ∧
    ((a.step r).1.production = a.production) ∧
    ((a.step r).1.randfunc = a.randfunc) ∧
    (∀ (l : List ProductionAgent) (s i : Nat), ∃ t,
        (scheduleStep l s).1.get? i = (l.get? i).map (fun b => (b.step t).1)) :=
  ⟨a.step_unique_id r, a.step_production r, a.step_randfunc r,
    fun l s i => scheduleStep_get? l s i⟩

/-- C7: for a model with 2 agents, production 10 each, and a randomizer
always returning 1, the total reported by the 5th call to Model.step is 100,
as is the sum of the agents' cumulative work after those 5 steps. -/
theorem C7_scenario_two_agents_five_steps :
    ((((MyModel.init 2 10 (some (fun _ => 1))).run 4).step).2 = 100) ∧
    (((((MyModel.init 2 10 (some (fun _ => 1))).run 5).agents).map
        (fun a => a.work_to_date)).sum = 100) :=
  ⟨rfl, rfl⟩

/-- C8: the identities of the agents created at model construction are
0 .. N-1 in insertion order, hence pairwise distinct. -/
theorem C8_agent_ids_distinct (n : Nat) (p : Int) (rz : Option Randomizer) :
    (((MyModel.init n p rz).agents).map (fun a => a.unique_id) = List.range n) ∧
    (((MyModel.init n p rz).agents).map (fun a => a.unique_id)).Nodup := by
  have h : ((MyModel.init n p rz).agents).map (fun a => a.unique_id)
      = List.range n := by
    simp [MyModel.init, ProductionAgent.init, List.map_map, Function.comp_def]
  exact ⟨h, h ▸ List.nodup_range n⟩

/-- C10: cumulative work is exactly 0 immediately after agent construction,
model construction performs no steps, and the sum of all agents' work in a
freshly constructed model is 0. -/
theorem C10_fresh_model_zero_work (i n : Nat) (p : Int)
    (rz : Option Randomizer) :
    (ProductionAgent.init i p rz).work_to_date = 0 ∧
    (MyModel.init n p rz).num_steps = 0 ∧
    ((((MyModel.init n p rz).agents).map (fun a => a.work_to_date)).sum = 0) := by
  refine ⟨rfl, rfl, ?_⟩
  simp [MyModel.init, ProductionAgent.init, List.map_map, Function.comp_def]
